import Mathlib

/-!
Verification development for the Split-NER tag-scheme span decoder and
entity-level scoring engine (`splitner/evaluator_qa.py`, with the shared
`Span`/`Metric` data types and the tag-index lookup described by the spec).

Machine integers are modelled as `Int` (tag-class indices, including the
ignore sentinel `-100`); Python exceptions (out-of-range list indexing)
are modelled by `Option`.
-/

namespace Splitner

/-- Modelled from the spec: the `Span` class lives in `splitner/evaluator.py`,
which is not among the provided sources.  Spec §3: a span is
`(context_index, start_position, end_position, entity_type)`, and two spans
are equal iff all four fields match exactly.  The entity-type field is called
`tag` because that is how `evaluator_qa.py` accesses it (`prev_span.tag`). -/
structure Span where
  context_index : Nat
  start_position : Nat
  end_position : Nat
  tag : String
deriving DecidableEq, Repr

/-- Modelled from the spec: `NerQADataset.get_tag_index` lives in
`splitner/dataset_qa.py`, which is not among the provided sources.
Spec §3: "Each class resolves to an index via a scheme-aware lookup that also
accounts for the none/ignore tag's position in the vocabulary."  We model the
lookup as an injective assignment of distinct indices to the tag classes,
with the none tag at index 0.  All invariant theorems below are proved for
arbitrary (even coincident) index assignments; this concrete assignment is
used only to instantiate concrete decoding examples. -/
def get_tag_index (tagText : String) (noneTag : String) : Int :=
  if tagText = noneTag then 0
  else if tagText = "B" then 1
  else if tagText = "I" then 2
  else if tagText = "E" then 3
  else if tagText = "S" then 4
  else 0

/-- Decoder state for one context: the spans already appended whose boundary
can no longer change, and the still-extendable open span (Python's
`prev_span`, which aliases the most recently appended span; when the code
sets `prev_span = None` the span simply stays in `context_spans` as emitted).
The spans appended so far are `st.1 ++ st.2.toList`. -/
abbrev DecodeState := List Span × Option Span

/-- The "close" transition: `prev_span = None` with no new span appended. -/
def closeState (st : DecodeState) : DecodeState :=
  (st.1 ++ st.2.toList, none)

/-- One loop iteration of `EvaluatorQA.get_spans` (the `num_labels != 2`
schemes) at position `p` of one context: `g` is `self.gold[ci][p]`, `t` is
`batch[ci][p]`, `tag` is the context's resolved entity type
(`self.dataset.contexts[ci].entity if self.dataset else "TAG"`, constant over
the context).  Branch order follows the source: ignore-mask, B, S,
(prev and I), (prev and E), else. -/
def stepSpan (numLabels bIdx iIdx eIdx sIdx : Int) (tag : String) (ci p : Nat)
    (g t : Int) (st : DecodeState) : DecodeState :=
  if g = -100 then closeState st
  else if t = bIdx then (st.1 ++ st.2.toList, some ⟨ci, p, p, tag⟩)
  else if t = sIdx then (st.1 ++ st.2.toList ++ [⟨ci, p, p, tag⟩], none)
  else
    match st.2 with
    | some sp =>
        if t = iIdx then
          if tag = sp.tag then
            (if numLabels = 3 then (st.1, some { sp with end_position := p }) else st)
          else (st.1 ++ [sp], none)
        else if t = eIdx then
          if tag = sp.tag then (st.1, some { sp with end_position := p })
          else (st.1 ++ [sp], none)
        else (st.1 ++ [sp], none)
    | none => (st.1, none)

/-- The inner token loop of `EvaluatorQA.get_spans` over one context's tag
row, threading the decoder state; `goldRow[p]?` models the (possibly
out-of-range, hence `Option`) access `self.gold[context_index][tok_index]`. -/
def getSpansRowAux (numLabels bIdx iIdx eIdx sIdx : Int) (tag : String) (ci : Nat)
    (goldRow : List Int) (p : Nat) (st : DecodeState) : List Int → Option (List Span)
  | [] => some (st.1 ++ st.2.toList)
  | t :: rest =>
    match goldRow[p]? with
    | none => none
    | some g =>
        getSpansRowAux numLabels bIdx iIdx eIdx sIdx tag ci goldRow (p + 1)
          (stepSpan numLabels bIdx iIdx eIdx sIdx tag ci p g t st) rest

/-- Decoding of one context, starting from the empty span list and
`prev_span = None`. -/
def getSpansRow (numLabels bIdx iIdx eIdx sIdx : Int) (tag : String) (ci : Nat)
    (goldRow row : List Int) : Option (List Span) :=
  getSpansRowAux numLabels bIdx iIdx eIdx sIdx tag ci goldRow 0 ([], none) row

/-- The outer context loop of `EvaluatorQA.get_spans`: `ci` is the index of
the first row of `rows` within the batch; the gold mask row is looked up in
the full `gold` batch (`(gold[ci]?).getD []` is only ever inspected at
positions of a nonempty row, matching the fact that Python evaluates
`self.gold[context_index][tok_index]` only inside the token loop). -/
def get_spans_aux (numLabels bIdx iIdx eIdx sIdx : Int) (entityOf : Nat → String)
    (gold : List (List Int)) (ci : Nat) : List (List Int) → Option (List (List Span))
  | [] => some []
  | row :: rest => do
      let spans ← getSpansRow numLabels bIdx iIdx eIdx sIdx (entityOf ci) ci
        ((gold[ci]?).getD []) row
      let rests ← get_spans_aux numLabels bIdx iIdx eIdx sIdx entityOf gold (ci + 1) rest
      pure (spans :: rests)

/-- `EvaluatorQA.get_spans(batch)`: decodes every context of `batch` under the
`num_labels != 2` schemes, with the tag-class indices resolved through
`get_tag_index` exactly as the source does, and `self.gold` as the
ignore mask.  `entityOf` models `self.dataset.contexts[i].entity` (or the
constant `"TAG"` when no dataset is supplied). -/
def get_spans (numLabels : Int) (noneTag : String) (entityOf : Nat → String)
    (gold batch : List (List Int)) : Option (List (List Span)) :=
  get_spans_aux numLabels (get_tag_index "B" noneTag) (get_tag_index "I" noneTag)
    (get_tag_index "E" noneTag) (get_tag_index "S" noneTag) entityOf gold 0 batch

/-- One loop iteration of `EvaluatorQA.get_spans_for_2_tag_scheme` (the `BO`
scheme): a `B` token extends an open span of the same type, otherwise starts
a new one-token span; every other token (and every ignored position) closes
the open span. -/
def stepSpan2 (bIdx : Int) (tag : String) (ci p : Nat) (g t : Int)
    (st : DecodeState) : DecodeState :=
  if g = -100 then closeState st
  else if t = bIdx then
    match st.2 with
    | some sp =>
        if tag = sp.tag then (st.1, some { sp with end_position := p })
        else (st.1 ++ [sp], some ⟨ci, p, p, tag⟩)
    | none => (st.1, some ⟨ci, p, p, tag⟩)
  else closeState st

/-- The inner token loop of `EvaluatorQA.get_spans_for_2_tag_scheme`. -/
def getSpansRow2Aux (bIdx : Int) (tag : String) (ci : Nat) (goldRow : List Int)
    (p : Nat) (st : DecodeState) : List Int → Option (List Span)
  | [] => some (st.1 ++ st.2.toList)
  | t :: rest =>
    match goldRow[p]? with
    | none => none
    | some g =>
        getSpansRow2Aux bIdx tag ci goldRow (p + 1) (stepSpan2 bIdx tag ci p g t st) rest

/-- Decoding of one context under the 2-tag scheme. -/
def getSpansRow2 (bIdx : Int) (tag : String) (ci : Nat) (goldRow row : List Int) :
    Option (List Span) :=
  getSpansRow2Aux bIdx tag ci goldRow 0 ([], none) row

/-- The outer context loop of `EvaluatorQA.get_spans_for_2_tag_scheme`. -/
def get_spans2_aux (bIdx : Int) (entityOf : Nat → String) (gold : List (List Int))
    (ci : Nat) : List (List Int) → Option (List (List Span))
  | [] => some []
  | row :: rest => do
      let spans ← getSpansRow2 bIdx (entityOf ci) ci ((gold[ci]?).getD []) row
      let rests ← get_spans2_aux bIdx entityOf gold (ci + 1) rest
      pure (spans :: rests)

/-- `EvaluatorQA.get_spans_for_2_tag_scheme(batch)`. -/
def get_spans_for_2_tag_scheme (noneTag : String) (entityOf : Nat → String)
    (gold batch : List (List Int)) : Option (List (List Span)) :=
  get_spans2_aux (get_tag_index "B" noneTag) entityOf gold 0 batch

/-- Comparator for the unreachability of the type-mismatch branches of
`EvaluatorQA.get_spans`: `stepSpan` with the two `else: prev_span = None`
type-mismatch branches (the `tag != prev_span.tag` cases of the I and E
arms) removed, the extension applied unconditionally. -/
def stepSpanNoMismatch (numLabels bIdx iIdx eIdx sIdx : Int) (tag : String)
    (ci p : Nat) (g t : Int) (st : DecodeState) : DecodeState :=
  if g = -100 then closeState st
  else if t = bIdx then (st.1 ++ st.2.toList, some ⟨ci, p, p, tag⟩)
  else if t = sIdx then (st.1 ++ st.2.toList ++ [⟨ci, p, p, tag⟩], none)
  else
    match st.2 with
    | some sp =>
        if t = iIdx then
          (if numLabels = 3 then (st.1, some { sp with end_position := p }) else st)
        else if t = eIdx then (st.1, some { sp with end_position := p })
        else (st.1 ++ [sp], none)
    | none => (st.1, none)

/-- Token loop of the mismatch-free variant of `get_spans`. -/
def getSpansRowAuxNM (numLabels bIdx iIdx eIdx sIdx : Int) (tag : String) (ci : Nat)
    (goldRow : List Int) (p : Nat) (st : DecodeState) : List Int → Option (List Span)
  | [] => some (st.1 ++ st.2.toList)
  | t :: rest =>
    match goldRow[p]? with
    | none => none
    | some g =>
        getSpansRowAuxNM numLabels bIdx iIdx eIdx sIdx tag ci goldRow (p + 1)
          (stepSpanNoMismatch numLabels bIdx iIdx eIdx sIdx tag ci p g t st) rest

/-- One-context decoding with the type-mismatch branches removed. -/
def getSpansRowNM (numLabels bIdx iIdx eIdx sIdx : Int) (tag : String) (ci : Nat)
    (goldRow row : List Int) : Option (List Span) :=
  getSpansRowAuxNM numLabels bIdx iIdx eIdx sIdx tag ci goldRow 0 ([], none) row

/-- Comparator for `get_spans_for_2_tag_scheme`: `stepSpan2` with the
type-mismatch test of the B arm removed — an open span is extended
unconditionally. -/
def stepSpan2NoMismatch (bIdx : Int) (tag : String) (ci p : Nat) (g t : Int)
    (st : DecodeState) : DecodeState :=
  if g = -100 then closeState st
  else if t = bIdx then
    match st.2 with
    | some sp => (st.1, some { sp with end_position := p })
    | none => (st.1, some ⟨ci, p, p, tag⟩)
  else closeState st

/-- Token loop of the mismatch-free variant of the 2-tag decoder. -/
def getSpansRow2AuxNM (bIdx : Int) (tag : String) (ci : Nat) (goldRow : List Int)
    (p : Nat) (st : DecodeState) : List Int → Option (List Span)
  | [] => some (st.1 ++ st.2.toList)
  | t :: rest =>
    match goldRow[p]? with
    | none => none
    | some g =>
        getSpansRow2AuxNM bIdx tag ci goldRow (p + 1)
          (stepSpan2NoMismatch bIdx tag ci p g t st) rest

/-- One-context 2-tag decoding with the type-mismatch branch removed. -/
def getSpansRow2NM (bIdx : Int) (tag : String) (ci : Nat) (goldRow row : List Int) :
    Option (List Span) :=
  getSpansRow2AuxNM bIdx tag ci goldRow 0 ([], none) row

/-- Soundness of one decoded span for context `ci` with resolved type `tag`:
it carries the context's type and index, and neither boundary sits at a
position whose gold-mask value is the ignore sentinel. -/
def SpanOk (goldRow : List Int) (tag : String) (ci : Nat) (s : Span) : Prop :=
  s.tag = tag ∧ s.context_index = ci ∧
  goldRow[s.start_position]? ≠ some (-100) ∧
  goldRow[s.end_position]? ≠ some (-100)

/-- The decoded spans of one context are non-overlapping and ordered by start
position: every span starts strictly after every earlier span ends. -/
def SpanOrdered (l : List Span) : Prop :=
  l.Pairwise (fun a b => a.end_position < b.start_position)

/-- Loop invariant on the list of spans appended so far, at the start of the
iteration for position `p`: every span is sound and ended before `p`, and
the list is ordered. -/
def InvList (goldRow : List Int) (tag : String) (ci p : Nat) (L : List Span) : Prop :=
  (∀ s ∈ L, SpanOk goldRow tag ci s ∧ s.end_position < p) ∧ SpanOrdered L

/-- The loop invariant read on a decoder state (appended spans =
`st.1 ++ st.2.toList`). -/
def SpanInv (goldRow : List Int) (tag : String) (ci p : Nat) (st : DecodeState) : Prop :=
  InvList goldRow tag ci p (st.1 ++ st.2.toList)

/-- Modelled from the spec: the `Metric` class lives in
`splitner/evaluator.py`, which is not among the provided sources.
Spec §3: per entity-type counters `{true_positive, false_positive,
false_negative}` plus a registry of all known entity-type labels, mutated
only via `add_tp`/`add_fp`/`add_fn` with a write-on-first-use registry
(spec §7 "Failure semantics"). -/
structure Metric where
  types : List String
  tp : String → Nat
  fp : String → Nat
  fn : String → Nat

/-- Modelled from the spec: `Metric(tags)` starts with the supplied
entity-type registry and all counters at zero. -/
def Metric.init (tags : List String) : Metric :=
  ⟨tags, fun _ => 0, fun _ => 0, fun _ => 0⟩

/-- Write-on-first-use registration of an entity-type label (spec §9:
an ordered mapping, created lazily, preserving insertion order). -/
def Metric.register (m : Metric) (t : String) : List String :=
  if t ∈ m.types then m.types else m.types ++ [t]

/-- Modelled from the spec: `add_tp` counts one true positive for the span's
entity type. -/
def Metric.add_tp (m : Metric) (s : Span) : Metric :=
  { m with types := m.register s.tag,
           tp := fun t => if t = s.tag then m.tp t + 1 else m.tp t }

/-- Modelled from the spec: `add_fp` counts one false positive for the span's
entity type. -/
def Metric.add_fp (m : Metric) (s : Span) : Metric :=
  { m with types := m.register s.tag,
           fp := fun t => if t = s.tag then m.fp t + 1 else m.fp t }

/-- Modelled from the spec: `add_fn` counts one false negative for the span's
entity type. -/
def Metric.add_fn (m : Metric) (s : Span) : Metric :=
  { m with types := m.register s.tag,
           fn := fun t => if t = s.tag then m.fn t + 1 else m.fn t }

/-- The body of the `zip` loop of `EvaluatorQA.calc_entity_metrics` for one
`(gold_sent_spans, predicted_sent_spans)` pair: each predicted span present
(by value equality, spec §3) in the gold list is a true positive, every other
predicted span a false positive, and each gold span absent from the predicted
list a false negative. -/
def scoreContext (m : Metric) (goldSpans predSpans : List Span) : Metric :=
  let m1 := predSpans.foldl
    (fun acc s => if s ∈ goldSpans then acc.add_tp s else acc.add_fp s) m
  goldSpans.foldl
    (fun acc s => if s ∈ predSpans then acc else acc.add_fn s) m1

/-- `EvaluatorQA.calc_entity_metrics`: a `Metric` over the registered tags,
accumulated over `zip(self.gold_entity_spans, self.predicted_entity_spans)`
(Python's `zip` stops at the shorter list). -/
def calc_entity_metrics (tags : List String) (golds preds : List (List Span)) :
    Metric :=
  (golds.zip preds).foldl (fun m gp => scoreContext m gp.1 gp.2)
    (Metric.init tags)

/-- `EvaluatorQA.__init__`: decode gold and predicted with the scheme picked
by `num_labels` (2 → `get_spans_for_2_tag_scheme`, otherwise `get_spans`),
then score; `none` models a Python exception escaping the constructor. -/
def evaluatorQA (numLabels : Int) (noneTag : String) (entityOf : Nat → String)
    (tags : List String) (gold predicted : List (List Int)) : Option Metric :=
  if numLabels = 2 then do
    let gs ← get_spans_for_2_tag_scheme noneTag entityOf gold gold
    let ps ← get_spans_for_2_tag_scheme noneTag entityOf gold predicted
    pure (calc_entity_metrics tags gs ps)
  else do
    let gs ← get_spans numLabels noneTag entityOf gold gold
    let ps ← get_spans numLabels noneTag entityOf gold predicted
    pure (calc_entity_metrics tags gs ps)

/-- Modelled from the spec: `precision = tp / (tp + fp)`, defined as 0 when
the denominator is 0 (spec §4.2 and §7); exact rational arithmetic. -/
def precision_value (tp fp : Nat) : ℚ :=
  if tp + fp = 0 then 0 else (tp : ℚ) / ((tp : ℚ) + (fp : ℚ))

/-- Modelled from the spec: `recall = tp / (tp + fn)`, defined as 0 when the
denominator is 0. -/
def recall_value (tp fn : Nat) : ℚ :=
  if tp + fn = 0 then 0 else (tp : ℚ) / ((tp : ℚ) + (fn : ℚ))

/-- Modelled from the spec: `f1 = 2·p·r / (p + r)`, defined as 0 when the
denominator is 0. -/
def f1_value (tp fp fn : Nat) : ℚ :=
  let p := precision_value tp fp
  let r := recall_value tp fn
  if p + r = 0 then 0 else 2 * p * r / (p + r)

/-- Micro-summed true positives: the sum of `tp` over all registered types. -/
def Metric.micro_tp (m : Metric) : Nat := (m.types.map m.tp).sum

/-- Micro-summed false positives. -/
def Metric.micro_fp (m : Metric) : Nat := (m.types.map m.fp).sum

/-- Micro-summed false negatives. -/
def Metric.micro_fn (m : Metric) : Nat := (m.types.map m.fn).sum

/-- Modelled from the spec: micro-averaged precision — sum the counters over
all registered entity types first, then apply the precision formula. -/
def Metric.micro_avg_precision (m : Metric) : ℚ :=
  precision_value m.micro_tp m.micro_fp

/-- Modelled from the spec: micro-averaged recall. -/
def Metric.micro_avg_recall (m : Metric) : ℚ :=
  recall_value m.micro_tp m.micro_fn

/-- Modelled from the spec: the micro-averaged F1 returned by
`NerQAExecutor.compute_metrics` as `micro_f1`. -/
def Metric.micro_avg_f1 (m : Metric) : ℚ :=
  f1_value m.micro_tp m.micro_fp m.micro_fn

/-- The two-type accumulator of spec §8 "Micro-average weighting": type `"A"`
with `(tp, fp, fn) = (8, 2, 0)` and type `"B"` with `(2, 0, 8)`, built through
the accumulator interface from `Metric.init ["A", "B"]`. -/
def microExample : Metric :=
  (fun m => Metric.add_fn m ⟨1, 1, 1, "B"⟩)^[8]
    ((fun m => Metric.add_tp m ⟨1, 0, 0, "B"⟩)^[2]
      ((fun m => Metric.add_fp m ⟨0, 1, 1, "A"⟩)^[2]
        ((fun m => Metric.add_tp m ⟨0, 0, 0, "A"⟩)^[8] (Metric.init ["A", "B"]))))

/-! ## Helper lemmas -/

/-- The token loop of `get_spans` never fails as long as the gold-mask row
covers every scanned position, whatever the tag values are. -/
theorem getSpansRowAux_isSome (numLabels bIdx iIdx eIdx sIdx : Int) (tag : String)
    (ci : Nat) (goldRow : List Int) :
    ∀ (row : List Int) (p : Nat) (st : DecodeState),
      p + row.length ≤ goldRow.length →
      (getSpansRowAux numLabels bIdx iIdx eIdx sIdx tag ci goldRow p st row).isSome := by
  intro row
  induction row with
  | nil => intro p st _; simp [getSpansRowAux]
  | cons t rest ih =>
      intro p st h
      have hp : p < goldRow.length := by simp [List.length_cons] at h; omega
      simp only [getSpansRowAux, List.getElem?_eq_getElem hp]
      exact ih (p + 1) _ (by simp [List.length_cons] at h ⊢; omega)

/-- The token loop of `get_spans_for_2_tag_scheme` never fails as long as the
gold-mask row covers every scanned position. -/
theorem getSpansRow2Aux_isSome (bIdx : Int) (tag : String) (ci : Nat)
    (goldRow : List Int) :
    ∀ (row : List Int) (p : Nat) (st : DecodeState),
      p + row.length ≤ goldRow.length →
      (getSpansRow2Aux bIdx tag ci goldRow p st row).isSome := by
  intro row
  induction row with
  | nil => intro p st _; simp [getSpansRow2Aux]
  | cons t rest ih =>
      intro p st h
      have hp : p < goldRow.length := by simp [List.length_cons] at h; omega
      simp only [getSpansRow2Aux, List.getElem?_eq_getElem hp]
      exact ih (p + 1) _ (by simp [List.length_cons] at h ⊢; omega)

/-- The invariant is stable when the position advances and the span list is
unchanged (the "close" transitions). -/
theorem invList_close {goldRow : List Int} {tag : String} {ci p : Nat} {L : List Span}
    (h : InvList goldRow tag ci p L) : InvList goldRow tag ci (p + 1) L :=
  ⟨fun s hs => ⟨(h.1 s hs).1, Nat.lt_succ_of_lt (h.1 s hs).2⟩, h.2⟩

/-- The invariant survives dropping spans from the list (needed when the open
span is discarded but — in the state model — moves to the closed part, or
when reading the invariant on a sub-state). -/
theorem invList_sublist {goldRow : List Int} {tag : String} {ci p : Nat}
    {L K : List Span} (hsub : K.Sublist L) (h : InvList goldRow tag ci p L) :
    InvList goldRow tag ci p K :=
  ⟨fun s hs => h.1 s (hsub.subset hs), h.2.sublist hsub⟩

/-- Appending a fresh one-token span at the current position preserves the
invariant, provided the current position is not ignored. -/
theorem invList_new {goldRow : List Int} {tag : String} {ci p : Nat} {L : List Span}
    (h : InvList goldRow tag ci p L) (hp : goldRow[p]? ≠ some (-100)) :
    InvList goldRow tag ci (p + 1) (L ++ [⟨ci, p, p, tag⟩]) := by
  obtain ⟨hall, hpw⟩ := h
  constructor
  · intro s hs
    rcases List.mem_append.1 hs with hmem | hmem
    · exact ⟨(hall s hmem).1, Nat.lt_succ_of_lt (hall s hmem).2⟩
    · rw [List.mem_singleton] at hmem
      subst hmem
      exact ⟨⟨rfl, rfl, hp, hp⟩, Nat.lt_succ_self p⟩
  · rw [SpanOrdered, List.pairwise_append]
    refine ⟨hpw, List.pairwise_singleton _ _, ?_⟩
    intro a ha b hb
    rw [List.mem_singleton] at hb
    subst hb
    exact (hall a ha).2

/-- Extending the trailing open span's end to the current position preserves
the invariant, provided the current position is not ignored. -/
theorem invList_extend {goldRow : List Int} {tag : String} {ci p : Nat}
    {d : List Span} {sp : Span}
    (h : InvList goldRow tag ci p (d ++ [sp])) (hp : goldRow[p]? ≠ some (-100)) :
    InvList goldRow tag ci (p + 1) (d ++ [{ sp with end_position := p }]) := by
  obtain ⟨hall, hpw⟩ := h
  have hsp := hall sp (List.mem_append_right d (List.mem_singleton.2 rfl))
  constructor
  · intro s hs
    rcases List.mem_append.1 hs with hmem | hmem
    · exact ⟨(hall s (List.mem_append_left _ hmem)).1,
        Nat.lt_succ_of_lt (hall s (List.mem_append_left _ hmem)).2⟩
    · rw [List.mem_singleton] at hmem
      subst hmem
      exact ⟨⟨hsp.1.1, hsp.1.2.1, hsp.1.2.2.1, hp⟩, Nat.lt_succ_self p⟩
  · rw [SpanOrdered, List.pairwise_append] at hpw ⊢
    refine ⟨hpw.1, List.pairwise_singleton _ _, ?_⟩
    intro a ha b hb
    rw [List.mem_singleton] at hb
    subst hb
    exact hpw.2.2 a ha sp (List.mem_singleton.2 rfl)

/-- One iteration of the `get_spans` token loop preserves the loop
invariant. -/
theorem stepSpan_inv (numLabels bIdx iIdx eIdx sIdx : Int) (tag : String) (ci : Nat)
    (goldRow : List Int) (p : Nat) (g t : Int) (st : DecodeState)
    (hg : goldRow[p]? = some g) (h : SpanInv goldRow tag ci p st) :
    SpanInv goldRow tag ci (p + 1)
      (stepSpan numLabels bIdx iIdx eIdx sIdx tag ci p g t st) := by
  obtain ⟨d, op⟩ := st
  rw [SpanInv] at h
  by_cases hgi : g = -100
  · rw [SpanInv]
    simp only [stepSpan, if_pos hgi, closeState, Option.toList_none, List.append_nil]
    exact invList_close h
  have hp : goldRow[p]? ≠ some (-100) := by rw [hg]; intro hc; exact hgi (by injection hc)
  by_cases hb : t = bIdx
  · rw [SpanInv]
    simp only [stepSpan, if_neg hgi, if_pos hb, Option.toList_some,
      ← List.append_assoc]
    exact invList_new h hp
  by_cases hs : t = sIdx
  · rw [SpanInv]
    simp only [stepSpan, if_neg hgi, if_neg hb, if_pos hs, Option.toList_none,
      List.append_nil, ← List.append_assoc]
    exact invList_new h hp
  cases op with
  | none =>
      rw [SpanInv]
      simp only [stepSpan, if_neg hgi, if_neg hb, if_neg hs, Option.toList_none,
        List.append_nil]
      simp only [Option.toList_none, List.append_nil] at h
      exact invList_close h
  | some sp =>
      simp only [Option.toList_some] at h
      by_cases hi : t = iIdx
      · by_cases htag : tag = sp.tag
        · by_cases hnl : numLabels = 3
          · rw [SpanInv]
            simp only [stepSpan, if_neg hgi, if_neg hb, if_neg hs, if_pos hi,
              if_pos htag, if_pos hnl, Option.toList_some]
            exact invList_extend h hp
          · rw [SpanInv]
            simp only [stepSpan, if_neg hgi, if_neg hb, if_neg hs, if_pos hi,
              if_pos htag, if_neg hnl, Option.toList_some]
            exact invList_close h
        · rw [SpanInv]
          simp only [stepSpan, if_neg hgi, if_neg hb, if_neg hs, if_pos hi,
            if_neg htag, Option.toList_none, List.append_nil]
          exact invList_close h
      · by_cases he : t = eIdx
        · by_cases htag : tag = sp.tag
          · rw [SpanInv]
            simp only [stepSpan, if_neg hgi, if_neg hb, if_neg hs, if_neg hi,
              if_pos he, if_pos htag, Option.toList_some]
            exact invList_extend h hp
          · rw [SpanInv]
            simp only [stepSpan, if_neg hgi, if_neg hb, if_neg hs, if_neg hi,
              if_pos he, if_neg htag, Option.toList_none, List.append_nil]
            exact invList_close h
        · rw [SpanInv]
          simp only [stepSpan, if_neg hgi, if_neg hb, if_neg hs, if_neg hi,
            if_neg he, Option.toList_none, List.append_nil]
          exact invList_close h

/-- One iteration of the `get_spans_for_2_tag_scheme` token loop preserves
the loop invariant. -/
theorem stepSpan2_inv (bIdx : Int) (tag : String) (ci : Nat)
    (goldRow : List Int) (p : Nat) (g t : Int) (st : DecodeState)
    (hg : goldRow[p]? = some g) (h : SpanInv goldRow tag ci p st) :
    SpanInv goldRow tag ci (p + 1) (stepSpan2 bIdx tag ci p g t st) := by
  obtain ⟨d, op⟩ := st
  rw [SpanInv] at h
  by_cases hgi : g = -100
  · rw [SpanInv]
    simp only [stepSpan2, if_pos hgi, closeState, Option.toList_none, List.append_nil]
    exact invList_close h
  have hp : goldRow[p]? ≠ some (-100) := by rw [hg]; intro hc; exact hgi (by injection hc)
  by_cases hb : t = bIdx
  · cases op with
    | none =>
        rw [SpanInv]
        simp only [stepSpan2, if_neg hgi, if_pos hb, Option.toList_some]
        simp only [Option.toList_none, List.append_nil] at h
        exact invList_new h hp
    | some sp =>
        simp only [Option.toList_some] at h
        by_cases htag : tag = sp.tag
        · rw [SpanInv]
          simp only [stepSpan2, if_neg hgi, if_pos hb, if_pos htag, Option.toList_some]
          exact invList_extend h hp
        · rw [SpanInv]
          simp only [stepSpan2, if_neg hgi, if_pos hb, if_neg htag, Option.toList_some]
          exact invList_new h hp
  · rw [SpanInv]
    simp only [stepSpan2, if_neg hgi, if_neg hb, closeState, Option.toList_none,
      List.append_nil]
    exact invList_close h

/-- Every successful run of the `get_spans` token loop from an invariant
state yields a sound, ordered span list. -/
theorem getSpansRowAux_sound (numLabels bIdx iIdx eIdx sIdx : Int) (tag : String)
    (ci : Nat) (goldRow : List Int) :
    ∀ (row : List Int) (p : Nat) (st : DecodeState) (res : List Span),
      getSpansRowAux numLabels bIdx iIdx eIdx sIdx tag ci goldRow p st row = some res →
      SpanInv goldRow tag ci p st →
      (∀ s ∈ res, SpanOk goldRow tag ci s) ∧ SpanOrdered res := by
  intro row
  induction row with
  | nil =>
      intro p st res h hinv
      rw [getSpansRowAux, Option.some_inj] at h
      subst h
      exact ⟨fun s hs => (hinv.1 s hs).1, hinv.2⟩
  | cons t rest ih =>
      intro p st res h hinv
      rw [getSpansRowAux] at h
      cases hg : goldRow[p]? with
      | none => rw [hg] at h; exact absurd h (by simp)
      | some g =>
          rw [hg] at h
          exact ih (p + 1) _ res h
            (stepSpan_inv numLabels bIdx iIdx eIdx sIdx tag ci goldRow p g t st hg hinv)

/-- Every successful run of the 2-tag token loop from an invariant state
yields a sound, ordered span list. -/
theorem getSpansRow2Aux_sound (bIdx : Int) (tag : String) (ci : Nat)
    (goldRow : List Int) :
    ∀ (row : List Int) (p : Nat) (st : DecodeState) (res : List Span),
      getSpansRow2Aux bIdx tag ci goldRow p st row = some res →
      SpanInv goldRow tag ci p st →
      (∀ s ∈ res, SpanOk goldRow tag ci s) ∧ SpanOrdered res := by
  intro row
  induction row with
  | nil =>
      intro p st res h hinv
      rw [getSpansRow2Aux, Option.some_inj] at h
      subst h
      exact ⟨fun s hs => (hinv.1 s hs).1, hinv.2⟩
  | cons t rest ih =>
      intro p st res h hinv
      rw [getSpansRow2Aux] at h
      cases hg : goldRow[p]? with
      | none => rw [hg] at h; exact absurd h (by simp)
      | some g =>
          rw [hg] at h
          exact ih (p + 1) _ res h (stepSpan2_inv bIdx tag ci goldRow p g t st hg hinv)

/-- The initial decoder state satisfies the loop invariant. -/
theorem spanInv_init (goldRow : List Int) (tag : String) (ci : Nat) :
    SpanInv goldRow tag ci 0 ([], none) := by
  constructor
  · intro s hs
    simp at hs
  · simp [SpanOrdered]

/-- A successful one-context `get_spans` decode yields a sound, ordered span
list. -/
theorem getSpansRow_sound (numLabels bIdx iIdx eIdx sIdx : Int) (tag : String)
    (ci : Nat) (goldRow row : List Int) (res : List Span)
    (h : getSpansRow numLabels bIdx iIdx eIdx sIdx tag ci goldRow row = some res) :
    (∀ s ∈ res, SpanOk goldRow tag ci s) ∧ SpanOrdered res :=
  getSpansRowAux_sound numLabels bIdx iIdx eIdx sIdx tag ci goldRow row 0 ([], none)
    res h (spanInv_init goldRow tag ci)

/-- A successful one-context 2-tag decode yields a sound, ordered span
list. -/
theorem getSpansRow2_sound (bIdx : Int) (tag : String) (ci : Nat)
    (goldRow row : List Int) (res : List Span)
    (h : getSpansRow2 bIdx tag ci goldRow row = some res) :
    (∀ s ∈ res, SpanOk goldRow tag ci s) ∧ SpanOrdered res :=
  getSpansRow2Aux_sound bIdx tag ci goldRow row 0 ([], none) res h
    (spanInv_init goldRow tag ci)

/-- Context `k` of a successful `get_spans_aux` run is exactly the
one-context decode of row `k` against gold-mask row `ci + k`. -/
theorem get_spans_aux_nth (numLabels bIdx iIdx eIdx sIdx : Int)
    (entityOf : Nat → String) (gold : List (List Int)) :
    ∀ (rows : List (List Int)) (ci : Nat) (res : List (List Span)),
      get_spans_aux numLabels bIdx iIdx eIdx sIdx entityOf gold ci rows = some res →
      ∀ (k : Nat) (spans : List Span), res[k]? = some spans →
      ∃ row, rows[k]? = some row ∧
        getSpansRow numLabels bIdx iIdx eIdx sIdx (entityOf (ci + k)) (ci + k)
          ((gold[ci + k]?).getD []) row = some spans := by
  intro rows
  induction rows with
  | nil =>
      intro ci res h k spans hk
      rw [get_spans_aux, Option.some_inj] at h
      subst h
      simp at hk
  | cons row rest ih =>
      intro ci res h k spans hk
      rcases h0 : getSpansRow numLabels bIdx iIdx eIdx sIdx (entityOf ci) ci
          ((gold[ci]?).getD []) row with _ | spans0
      · rw [get_spans_aux, h0] at h
        simp at h
      rcases h2 : get_spans_aux numLabels bIdx iIdx eIdx sIdx entityOf gold (ci + 1)
          rest with _ | rests
      · rw [get_spans_aux, h0, h2] at h
        simp at h
      rw [get_spans_aux, h0, h2] at h
      simp at h
      subst h
      cases k with
      | zero =>
          rw [List.getElem?_cons_zero, Option.some_inj] at hk
          subst hk
          exact ⟨row, by simp, by simpa using h0⟩
      | succ k =>
          rw [List.getElem?_cons_succ] at hk
          obtain ⟨row', hr, hd⟩ := ih (ci + 1) rests h2 k spans hk
          refine ⟨row', by simpa using hr, ?_⟩
          have : ci + 1 + k = ci + (k + 1) := by omega
          rw [this] at hd
          exact hd

/-- Context `k` of a successful `get_spans2_aux` run is exactly the
one-context 2-tag decode of row `k` against gold-mask row `ci + k`. -/
theorem get_spans2_aux_nth (bIdx : Int) (entityOf : Nat → String)
    (gold : List (List Int)) :
    ∀ (rows : List (List Int)) (ci : Nat) (res : List (List Span)),
      get_spans2_aux bIdx entityOf gold ci rows = some res →
      ∀ (k : Nat) (spans : List Span), res[k]? = some spans →
      ∃ row, rows[k]? = some row ∧
        getSpansRow2 bIdx (entityOf (ci + k)) (ci + k)
          ((gold[ci + k]?).getD []) row = some spans := by
  intro rows
  induction rows with
  | nil =>
      intro ci res h k spans hk
      rw [get_spans2_aux, Option.some_inj] at h
      subst h
      simp at hk
  | cons row rest ih =>
      intro ci res h k spans hk
      rcases h0 : getSpansRow2 bIdx (entityOf ci) ci ((gold[ci]?).getD []) row
          with _ | spans0
      · rw [get_spans2_aux, h0] at h
        simp at h
      rcases h2 : get_spans2_aux bIdx entityOf gold (ci + 1) rest with _ | rests
      · rw [get_spans2_aux, h0, h2] at h
        simp at h
      rw [get_spans2_aux, h0, h2] at h
      simp at h
      subst h
      cases k with
      | zero =>
          rw [List.getElem?_cons_zero, Option.some_inj] at hk
          subst hk
          exact ⟨row, by simp, by simpa using h0⟩
      | succ k =>
          rw [List.getElem?_cons_succ] at hk
          obtain ⟨row', hr, hd⟩ := ih (ci + 1) rests h2 k spans hk
          refine ⟨row', by simpa using hr, ?_⟩
          have : ci + 1 + k = ci + (k + 1) := by omega
          rw [this] at hd
          exact hd

/-- When the open span (if any) carries the context's resolved type, one
`get_spans` step agrees with the mismatch-free step. -/
theorem stepSpan_eq_noMismatch (numLabels bIdx iIdx eIdx sIdx : Int) (tag : String)
    (ci p : Nat) (g t : Int) (st : DecodeState)
    (hop : ∀ sp, st.2 = some sp → sp.tag = tag) :
    stepSpan numLabels bIdx iIdx eIdx sIdx tag ci p g t st
      = stepSpanNoMismatch numLabels bIdx iIdx eIdx sIdx tag ci p g t st := by
  obtain ⟨d, op⟩ := st
  cases op with
  | none => simp [stepSpan, stepSpanNoMismatch]
  | some sp =>
      have htag : sp.tag = tag := hop sp rfl
      simp [stepSpan, stepSpanNoMismatch, htag]

/-- A `get_spans` step keeps the open span's type equal to the context's
resolved type. -/
theorem stepSpan_open_tag (numLabels bIdx iIdx eIdx sIdx : Int) (tag : String)
    (ci p : Nat) (g t : Int) (st : DecodeState)
    (hop : ∀ sp, st.2 = some sp → sp.tag = tag) :
    ∀ sp', (stepSpan numLabels bIdx iIdx eIdx sIdx tag ci p g t st).2 = some sp' →
      sp'.tag = tag := by
  obtain ⟨d, op⟩ := st
  intro sp' h
  cases op with
  | none =>
      simp only [stepSpan, closeState] at h
      split_ifs at h <;> simp at h <;> (try subst h) <;> simp_all
  | some sp =>
      have htag : sp.tag = tag := hop sp rfl
      simp only [stepSpan, closeState] at h
      split_ifs at h <;> simp at h <;> (try subst h) <;> simp_all

/-- When the open span (if any) carries the context's resolved type, one
2-tag step agrees with the mismatch-free step. -/
theorem stepSpan2_eq_noMismatch (bIdx : Int) (tag : String) (ci p : Nat)
    (g t : Int) (st : DecodeState)
    (hop : ∀ sp, st.2 = some sp → sp.tag = tag) :
    stepSpan2 bIdx tag ci p g t st = stepSpan2NoMismatch bIdx tag ci p g t st := by
  obtain ⟨d, op⟩ := st
  cases op with
  | none => simp [stepSpan2, stepSpan2NoMismatch]
  | some sp =>
      have htag : sp.tag = tag := hop sp rfl
      simp [stepSpan2, stepSpan2NoMismatch, htag]

/-- A 2-tag step keeps the open span's type equal to the context's resolved
type. -/
theorem stepSpan2_open_tag (bIdx : Int) (tag : String) (ci p : Nat)
    (g t : Int) (st : DecodeState)
    (hop : ∀ sp, st.2 = some sp → sp.tag = tag) :
    ∀ sp', (stepSpan2 bIdx tag ci p g t st).2 = some sp' → sp'.tag = tag := by
  obtain ⟨d, op⟩ := st
  intro sp' h
  cases op with
  | none =>
      simp only [stepSpan2, closeState] at h
      split_ifs at h <;> simp at h <;> (try subst h) <;> simp_all
  | some sp =>
      have htag : sp.tag = tag := hop sp rfl
      simp only [stepSpan2, closeState] at h
      split_ifs at h <;> simp at h <;> (try subst h) <;> simp_all

/-- The `get_spans` token loop agrees with its mismatch-free variant from any
state whose open span carries the context's resolved type. -/
theorem getSpansRowAux_eq_NM (numLabels bIdx iIdx eIdx sIdx : Int) (tag : String)
    (ci : Nat) (goldRow : List Int) :
    ∀ (row : List Int) (p : Nat) (st : DecodeState),
      (∀ sp, st.2 = some sp → sp.tag = tag) →
      getSpansRowAux numLabels bIdx iIdx eIdx sIdx tag ci goldRow p st row
        = getSpansRowAuxNM numLabels bIdx iIdx eIdx sIdx tag ci goldRow p st row := by
  intro row
  induction row with
  | nil => intro p st _; simp [getSpansRowAux, getSpansRowAuxNM]
  | cons t rest ih =>
      intro p st hop
      have hstep := stepSpan_eq_noMismatch numLabels bIdx iIdx eIdx sIdx tag ci p
      simp only [getSpansRowAux, getSpansRowAuxNM]
      cases hg : goldRow[p]? with
      | none => rfl
      | some g =>
          have hop' : ∀ sp,
              (stepSpanNoMismatch numLabels bIdx iIdx eIdx sIdx tag ci p g t st).2
                = some sp → sp.tag = tag := by
            rw [← hstep g t st hop]
            exact stepSpan_open_tag numLabels bIdx iIdx eIdx sIdx tag ci p g t st hop
          dsimp only
          rw [hstep g t st hop]
          exact ih (p + 1) _ hop'

/-- The 2-tag token loop agrees with its mismatch-free variant from any state
whose open span carries the context's resolved type. -/
theorem getSpansRow2Aux_eq_NM (bIdx : Int) (tag : String) (ci : Nat)
    (goldRow : List Int) :
    ∀ (row : List Int) (p : Nat) (st : DecodeState),
      (∀ sp, st.2 = some sp → sp.tag = tag) →
      getSpansRow2Aux bIdx tag ci goldRow p st row
        = getSpansRow2AuxNM bIdx tag ci goldRow p st row := by
  intro row
  induction row with
  | nil => intro p st _; simp [getSpansRow2Aux, getSpansRow2AuxNM]
  | cons t rest ih =>
      intro p st hop
      have hstep := stepSpan2_eq_noMismatch bIdx tag ci p
      simp only [getSpansRow2Aux, getSpansRow2AuxNM]
      cases hg : goldRow[p]? with
      | none => rfl
      | some g =>
          have hop' : ∀ sp, (stepSpan2NoMismatch bIdx tag ci p g t st).2 = some sp →
              sp.tag = tag := by
            rw [← hstep g t st hop]
            exact stepSpan2_open_tag bIdx tag ci p g t st hop
          dsimp only
          rw [hstep g t st hop]
          exact ih (p + 1) _ hop'

/-- The predicted-span fold of `calc_entity_metrics` adds one `tp` for each
predicted span that is value-equal to a gold span and carries type `t`. -/
theorem predFold_tp (gs : List Span) (t : String) :
    ∀ (ps : List Span) (m : Metric),
      ((ps.foldl (fun acc s => if s ∈ gs then acc.add_tp s else acc.add_fp s) m).tp t)
        = m.tp t + ps.countP (fun s => decide (s ∈ gs) && decide (s.tag = t)) := by
  intro ps
  induction ps with
  | nil => intro m; simp
  | cons s ps ih =>
      intro m
      rw [List.foldl_cons, ih, List.countP_cons]
      rcases eq_or_ne s.tag t with htag | htag
      · by_cases hmem : s ∈ gs <;>
          simp [hmem, ← htag, Metric.add_tp, Metric.add_fp] <;> omega
      · by_cases hmem : s ∈ gs <;>
          simp [hmem, htag, Ne.symm htag, Metric.add_tp, Metric.add_fp] <;> omega

/-- The predicted-span fold adds one `fp` for each predicted span with no
value-equal gold counterpart and type `t`. -/
theorem predFold_fp (gs : List Span) (t : String) :
    ∀ (ps : List Span) (m : Metric),
      ((ps.foldl (fun acc s => if s ∈ gs then acc.add_tp s else acc.add_fp s) m).fp t)
        = m.fp t + ps.countP (fun s => !decide (s ∈ gs) && decide (s.tag = t)) := by
  intro ps
  induction ps with
  | nil => intro m; simp
  | cons s ps ih =>
      intro m
      rw [List.foldl_cons, ih, List.countP_cons]
      rcases eq_or_ne s.tag t with htag | htag
      · by_cases hmem : s ∈ gs <;>
          simp [hmem, ← htag, Metric.add_tp, Metric.add_fp] <;> omega
      · by_cases hmem : s ∈ gs <;>
          simp [hmem, htag, Ne.symm htag, Metric.add_tp, Metric.add_fp] <;> omega

/-- The predicted-span fold never touches `fn` counters. -/
theorem predFold_fn (gs : List Span) (t : String) :
    ∀ (ps : List Span) (m : Metric),
      ((ps.foldl (fun acc s => if s ∈ gs then acc.add_tp s else acc.add_fp s) m).fn t)
        = m.fn t := by
  intro ps
  induction ps with
  | nil => intro m; simp
  | cons s ps ih =>
      intro m
      rw [List.foldl_cons, ih]
      by_cases hmem : s ∈ gs <;> simp [hmem, Metric.add_tp, Metric.add_fp]

/-- The gold-span fold of `calc_entity_metrics` adds one `fn` for each gold
span with no value-equal predicted counterpart and type `t`. -/
theorem goldFold_fn (ps : List Span) (t : String) :
    ∀ (gs : List Span) (m : Metric),
      ((gs.foldl (fun acc s => if s ∈ ps then acc else acc.add_fn s) m).fn t)
        = m.fn t + gs.countP (fun s => !decide (s ∈ ps) && decide (s.tag = t)) := by
  intro gs
  induction gs with
  | nil => intro m; simp
  | cons s gs ih =>
      intro m
      rw [List.foldl_cons, ih, List.countP_cons]
      rcases eq_or_ne s.tag t with htag | htag
      · by_cases hmem : s ∈ ps <;>
          simp [hmem, ← htag, Metric.add_fn] <;> omega
      · by_cases hmem : s ∈ ps <;>
          simp [hmem, htag, Ne.symm htag, Metric.add_fn] <;> omega

/-- The gold-span fold never touches `tp` counters. -/
theorem goldFold_tp (ps : List Span) (t : String) :
    ∀ (gs : List Span) (m : Metric),
      ((gs.foldl (fun acc s => if s ∈ ps then acc else acc.add_fn s) m).tp t)
        = m.tp t := by
  intro gs
  induction gs with
  | nil => intro m; simp
  | cons s gs ih =>
      intro m
      rw [List.foldl_cons, ih]
      by_cases hmem : s ∈ ps <;> simp [hmem, Metric.add_fn]

/-- The gold-span fold never touches `fp` counters. -/
theorem goldFold_fp (ps : List Span) (t : String) :
    ∀ (gs : List Span) (m : Metric),
      ((gs.foldl (fun acc s => if s ∈ ps then acc else acc.add_fn s) m).fp t)
        = m.fp t := by
  intro gs
  induction gs with
  | nil => intro m; simp
  | cons s gs ih =>
      intro m
      rw [List.foldl_cons, ih]
      by_cases hmem : s ∈ ps <;> simp [hmem, Metric.add_fn]

/-- Per-context scoring: counter deltas of `scoreContext`. -/
theorem scoreContext_counts (m : Metric) (gs ps : List Span) (t : String) :
    (scoreContext m gs ps).tp t
        = m.tp t + ps.countP (fun s => decide (s ∈ gs) && decide (s.tag = t))
    ∧ (scoreContext m gs ps).fp t
        = m.fp t + ps.countP (fun s => !decide (s ∈ gs) && decide (s.tag = t))
    ∧ (scoreContext m gs ps).fn t
        = m.fn t + gs.countP (fun s => !decide (s ∈ ps) && decide (s.tag = t)) := by
  refine ⟨?_, ?_, ?_⟩
  · rw [scoreContext, goldFold_tp, predFold_tp]
  · rw [scoreContext, goldFold_fp, predFold_fp]
  · rw [scoreContext, goldFold_fn, predFold_fn]

/-- Folding `scoreContext` over a list of context pairs sums the per-context
counts. -/
theorem calcFold_counts (t : String) :
    ∀ (l : List (List Span × List Span)) (m : Metric),
      ((l.foldl (fun acc gp => scoreContext acc gp.1 gp.2) m).tp t
          = m.tp t + (l.map (fun gp =>
              gp.2.countP (fun s => decide (s ∈ gp.1) && decide (s.tag = t)))).sum)
      ∧ ((l.foldl (fun acc gp => scoreContext acc gp.1 gp.2) m).fp t
          = m.fp t + (l.map (fun gp =>
              gp.2.countP (fun s => !decide (s ∈ gp.1) && decide (s.tag = t)))).sum)
      ∧ ((l.foldl (fun acc gp => scoreContext acc gp.1 gp.2) m).fn t
          = m.fn t + (l.map (fun gp =>
              gp.1.countP (fun s => !decide (s ∈ gp.2) && decide (s.tag = t)))).sum) := by
  intro l
  induction l with
  | nil => intro m; simp
  | cons gp l ih =>
      intro m
      obtain ⟨ihtp, ihfp, ihfn⟩ := ih (scoreContext m gp.1 gp.2)
      obtain ⟨htp, hfp, hfn⟩ := scoreContext_counts m gp.1 gp.2 t
      rw [List.foldl_cons, List.map_cons, List.sum_cons, List.map_cons, List.sum_cons,
        List.map_cons, List.sum_cons]
      refine ⟨?_, ?_, ?_⟩
      · rw [ihtp, htp]; omega
      · rw [ihfp, hfp]; omega
      · rw [ihfn, hfn]; omega

/-- Zipping is blind to the part of the left list beyond the right list's
length (Python `zip` semantics). -/
theorem zip_take_left {α β : Type} :
    ∀ (as : List α) (bs : List β), as.zip bs = (as.take bs.length).zip bs := by
  intro as
  induction as with
  | nil => intro bs; simp
  | cons a as ih =>
      intro bs
      cases bs with
      | nil => simp
      | cons b bs => simp [List.zip_cons_cons, ih bs]

/-- The `get_spans` context loop never fails as long as every scanned row is
covered by its gold-mask row. -/
theorem get_spans_aux_isSome (numLabels bIdx iIdx eIdx sIdx : Int)
    (entityOf : Nat → String) (gold : List (List Int)) :
    ∀ (rows : List (List Int)) (ci : Nat),
      (∀ k, k < rows.length →
        ((rows[k]?).getD []).length ≤ ((gold[ci + k]?).getD []).length) →
      (get_spans_aux numLabels bIdx iIdx eIdx sIdx entityOf gold ci rows).isSome := by
  intro rows
  induction rows with
  | nil => intro ci _; rw [get_spans_aux]; rfl
  | cons row rest ih =>
      intro ci hlen
      have h0 : (getSpansRow numLabels bIdx iIdx eIdx sIdx (entityOf ci) ci
          ((gold[ci]?).getD []) row).isSome := by
        rw [getSpansRow]
        apply getSpansRowAux_isSome
        have := hlen 0 (by simp)
        simpa using this
      have h1 : (get_spans_aux numLabels bIdx iIdx eIdx sIdx entityOf gold
          (ci + 1) rest).isSome := by
        apply ih
        intro k hk
        have hx := hlen (k + 1) (by simpa using Nat.succ_lt_succ hk)
        have heq : ci + (k + 1) = ci + 1 + k := by omega
        rw [heq] at hx
        simpa using hx
      obtain ⟨gs, hgs⟩ := Option.isSome_iff_exists.1 h0
      obtain ⟨rs, hrs⟩ := Option.isSome_iff_exists.1 h1
      rw [get_spans_aux, hgs, hrs]
      simp

/-- The 2-tag context loop never fails as long as every scanned row is
covered by its gold-mask row. -/
theorem get_spans2_aux_isSome (bIdx : Int) (entityOf : Nat → String)
    (gold : List (List Int)) :
    ∀ (rows : List (List Int)) (ci : Nat),
      (∀ k, k < rows.length →
        ((rows[k]?).getD []).length ≤ ((gold[ci + k]?).getD []).length) →
      (get_spans2_aux bIdx entityOf gold ci rows).isSome := by
  intro rows
  induction rows with
  | nil => intro ci _; rw [get_spans2_aux]; rfl
  | cons row rest ih =>
      intro ci hlen
      have h0 : (getSpansRow2 bIdx (entityOf ci) ci ((gold[ci]?).getD []) row).isSome := by
        rw [getSpansRow2]
        apply getSpansRow2Aux_isSome
        have := hlen 0 (by simp)
        simpa using this
      have h1 : (get_spans2_aux bIdx entityOf gold (ci + 1) rest).isSome := by
        apply ih
        intro k hk
        have hx := hlen (k + 1) (by simpa using Nat.succ_lt_succ hk)
        have heq : ci + (k + 1) = ci + 1 + k := by omega
        rw [heq] at hx
        simpa using hx
      obtain ⟨gs, hgs⟩ := Option.isSome_iff_exists.1 h0
      obtain ⟨rs, hrs⟩ := Option.isSome_iff_exists.1 h1
      rw [get_spans2_aux, hgs, hrs]
      simp

/-! ## Claim theorems -/

/-- C1, counterexample: under `BIOE` (`num_labels = 4`) the tag sequence
`[B, I, O]` (indices `[1, 2, 0]`) on a context with no ignored positions
decodes to the single span `(0, 0)` — not `(0, 1)` as the claim states: the
I arm only extends the boundary when `num_labels == 3`, so without a closing
E the boundary stays at the B position. -/
theorem c1_counterexample :
    get_spans 4 "O" (fun _ => "TAG") [[0, 0, 0]] [[1, 2, 0]]
      = some [[{ context_index := 0, start_position := 0, end_position := 0, tag := "TAG" }]]
    ∧ get_spans 4 "O" (fun _ => "TAG") [[0, 0, 0]] [[1, 2, 0]]
      ≠ some [[{ context_index := 0, start_position := 0, end_position := 1, tag := "TAG" }]] := by
  constructor <;> decide

/-- C1, amended: under the 4-class `BIOE` scheme, for a context with no
ignored positions, decoding `[B, I, E, O]` yields exactly one span with
boundaries `(0, 2)`; and decoding `[B, I, O]` (missing the closing E) still
emits exactly one span, with boundaries `(0, 0)` — frozen at the last
confirmed extension, which is the creating B itself, since under `BIOE` an
I token leaves the boundary unchanged. -/
theorem c1_bioe_boundary_fixation (g0 g1 g2 g3 : Int) (tag : String)
    (h0 : g0 ≠ -100) (h1 : g1 ≠ -100) (h2 : g2 ≠ -100) (h3 : g3 ≠ -100) :
    get_spans 4 "O" (fun _ => tag) [[g0, g1, g2, g3]] [[1, 2, 3, 0]]
      = some [[{ context_index := 0, start_position := 0, end_position := 2, tag := tag }]]
    ∧ get_spans 4 "O" (fun _ => tag) [[g0, g1, g2]] [[1, 2, 0]]
      = some [[{ context_index := 0, start_position := 0, end_position := 0, tag := tag }]] := by
  constructor <;>
    simp [get_spans, get_spans_aux, getSpansRow, getSpansRowAux, stepSpan,
      get_tag_index, closeState, h0, h1, h2, h3]

/-- C1, witness: the amended theorem applied at the all-zero gold mask and
the generic `"TAG"` type. -/
theorem c1_witness :
    get_spans 4 "O" (fun _ => "TAG") [[0, 0, 0, 0]] [[1, 2, 3, 0]]
      = some [[{ context_index := 0, start_position := 0, end_position := 2, tag := "TAG" }]]
    ∧ get_spans 4 "O" (fun _ => "TAG") [[0, 0, 0]] [[1, 2, 0]]
      = some [[{ context_index := 0, start_position := 0, end_position := 0, tag := "TAG" }]] :=
  c1_bioe_boundary_fixation 0 0 0 0 "TAG" (by decide) (by decide) (by decide) (by decide)

/-- C4: under the 2-class `BO` scheme, a B token at any position `p` while a
span of the same entity type is open extends that open span's end to `p` and
keeps it open (general step-level rule); hence `[B, B, O, B]` on a
single-type context decodes to the spans `(0, 1)` and `(3, 3)`; under every
other scheme (`get_spans`), a B token always starts a fresh one-token
span. -/
theorem c4_bo_coalescing :
    (∀ (bIdx : Int) (tag : String) (ci p : Nat) (g : Int) (done : List Span)
        (sp : Span), g ≠ -100 → tag = sp.tag →
        stepSpan2 bIdx tag ci p g bIdx (done, some sp)
          = (done, some { sp with end_position := p }))
    ∧ (∀ (g0 g1 g2 g3 : Int) (tag : String),
      g0 ≠ -100 → g1 ≠ -100 → g2 ≠ -100 → g3 ≠ -100 →
      get_spans_for_2_tag_scheme "O" (fun _ => tag) [[g0, g1, g2, g3]] [[1, 1, 0, 1]]
        = some [[{ context_index := 0, start_position := 0, end_position := 1, tag := tag },
                 { context_index := 0, start_position := 3, end_position := 3, tag := tag }]])
    ∧ (∀ (numLabels bIdx iIdx eIdx sIdx : Int) (tag : String) (ci p : Nat)
        (g : Int) (st : DecodeState), g ≠ -100 →
        stepSpan numLabels bIdx iIdx eIdx sIdx tag ci p g bIdx st
          = (st.1 ++ st.2.toList, some ⟨ci, p, p, tag⟩)) := by
  refine ⟨?_, ?_, ?_⟩
  · intro bIdx tag ci p g done sp hg htag
    simp [stepSpan2, hg, htag]
  · intro g0 g1 g2 g3 tag h0 h1 h2 h3
    simp [get_spans_for_2_tag_scheme, get_spans2_aux, getSpansRow2, getSpansRow2Aux,
      stepSpan2, get_tag_index, closeState, h0, h1, h2, h3]
  · intro numLabels bIdx iIdx eIdx sIdx tag ci p g st hg
    simp [stepSpan, hg]

/-- C4, witness: the BO extension step at a concrete open state, the decode
of `[B, B, O, B]` at the all-zero gold mask with type `"TAG"`, and the B arm
of `stepSpan` at a concrete open state. -/
theorem c4_witness :
    stepSpan2 1 "TAG" 0 5 0 1 ([], some ⟨0, 0, 0, "TAG"⟩)
      = ([], some ⟨0, 0, 5, "TAG"⟩)
    ∧ get_spans_for_2_tag_scheme "O" (fun _ => "TAG") [[0, 0, 0, 0]] [[1, 1, 0, 1]]
      = some [[{ context_index := 0, start_position := 0, end_position := 1, tag := "TAG" },
               { context_index := 0, start_position := 3, end_position := 3, tag := "TAG" }]]
    ∧ stepSpan 4 1 2 3 4 "TAG" 0 5 0 1 ([], some ⟨0, 0, 0, "TAG"⟩)
      = ([⟨0, 0, 0, "TAG"⟩], some ⟨0, 5, 5, "TAG"⟩) :=
  ⟨c4_bo_coalescing.1 1 "TAG" 0 5 0 [] ⟨0, 0, 0, "TAG"⟩ (by decide) (by decide),
   c4_bo_coalescing.2.1 0 0 0 0 "TAG" (by decide) (by decide) (by decide) (by decide),
   c4_bo_coalescing.2.2 4 1 2 3 4 "TAG" 0 5 0 ([], some ⟨0, 0, 0, "TAG"⟩) (by decide)⟩

/-- C5: under the 3-class `BIO` scheme (`num_labels = 3`), an I token at `p`
with an open span of the same resolved type extends that span's end to `p`
(the step-level statement needs `t ≠ bIdx`, `t ≠ sIdx` because the source
checks the B and S arms first); and `[B, I, I, O]` on a context with no
ignored positions decodes to exactly one span `(0, 2)`. -/
theorem c5_bio_growth :
    (∀ (bIdx iIdx eIdx sIdx : Int) (tag : String) (ci p : Nat) (g t : Int)
      (done : List Span) (sp : Span),
      g ≠ -100 → t ≠ bIdx → t ≠ sIdx → t = iIdx → tag = sp.tag →
      stepSpan 3 bIdx iIdx eIdx sIdx tag ci p g t (done, some sp)
        = (done, some { sp with end_position := p }))
    ∧ (∀ (g0 g1 g2 g3 : Int) (tag : String),
      g0 ≠ -100 → g1 ≠ -100 → g2 ≠ -100 → g3 ≠ -100 →
      get_spans 3 "O" (fun _ => tag) [[g0, g1, g2, g3]] [[1, 2, 2, 0]]
        = some [[{ context_index := 0, start_position := 0, end_position := 2, tag := tag }]]) := by
  constructor
  · intro bIdx iIdx eIdx sIdx tag ci p g t done sp hg hb hs hi htag
    subst hi
    simp [stepSpan, hg, hb, hs, htag]
  · intro g0 g1 g2 g3 tag h0 h1 h2 h3
    simp [get_spans, get_spans_aux, getSpansRow, getSpansRowAux, stepSpan,
      get_tag_index, closeState, h0, h1, h2, h3]

/-- C5, witness: the I-extension step at a concrete state and the concrete
`[B, I, I, O]` decode. -/
theorem c5_witness :
    stepSpan 3 1 2 3 4 "TAG" 0 7 0 2 ([], some ⟨0, 0, 0, "TAG"⟩)
      = ([], some ⟨0, 0, 7, "TAG"⟩)
    ∧ get_spans 3 "O" (fun _ => "TAG") [[0, 0, 0, 0]] [[1, 2, 2, 0]]
      = some [[{ context_index := 0, start_position := 0, end_position := 2, tag := "TAG" }]] :=
  ⟨c5_bio_growth.1 1 2 3 4 "TAG" 0 7 0 2 [] ⟨0, 0, 0, "TAG"⟩
      (by decide) (by decide) (by decide) (by decide) (by decide),
   c5_bio_growth.2 0 0 0 0 "TAG" (by decide) (by decide) (by decide) (by decide)⟩

/-- C8, counterexample: a tag-class index outside the active scheme's defined
range does NOT take the span-closing none branch.  Under `BIOE`
(`num_labels = 4`, classes O/B/I/E at indices 0..3), the raw value 4 — the S
lookup index, outside the scheme's range — hits the S arm and emits a
one-token span instead of emitting nothing; and under `BIO`
(`num_labels = 3`, indices 0..2), the raw value 3 — the E lookup index — hits
the E arm after a B and extends the open span to `(0, 1)` instead of leaving
`(0, 0)`: `get_spans` resolves all four B/I/E/S indices regardless of
`num_labels`. -/
theorem c8_counterexample :
    (get_spans 4 "O" (fun _ => "TAG") [[0]] [[4]]
      = some [[{ context_index := 0, start_position := 0, end_position := 0, tag := "TAG" }]]
    ∧ get_spans 4 "O" (fun _ => "TAG") [[0]] [[4]] ≠ some [[]])
    ∧ (get_spans 3 "O" (fun _ => "TAG") [[0, 0, 0]] [[1, 3, 0]]
      = some [[{ context_index := 0, start_position := 0, end_position := 1, tag := "TAG" }]]
    ∧ get_spans 3 "O" (fun _ => "TAG") [[0, 0, 0]] [[1, 3, 0]]
      ≠ some [[{ context_index := 0, start_position := 0, end_position := 0, tag := "TAG" }]]) := by
  refine ⟨⟨?_, ?_⟩, ?_, ?_⟩ <;> decide

/-- C8, amended: for any tag value that equals none of the four B/I/E/S
lookup indices (which the decoder resolves through `get_tag_index` regardless
of the active `num_labels`) — in particular the none/O index — both decoders
take the span-closing none branch (open span set to `null`, no span emitted
at that position), and the token loops never raise whatever the tag values
are (failure only comes from the gold mask running out); tag values equal to
the S or E lookup indices, however, take the S/E arms even under schemes with
fewer classes. -/
theorem c8_unknown_tag_closes :
    (∀ (numLabels bIdx iIdx eIdx sIdx : Int) (tag : String) (ci p : Nat)
      (g t : Int) (st : DecodeState),
      g ≠ -100 → t ≠ bIdx → t ≠ iIdx → t ≠ eIdx → t ≠ sIdx →
      stepSpan numLabels bIdx iIdx eIdx sIdx tag ci p g t st
        = (st.1 ++ st.2.toList, none))
    ∧ (∀ (bIdx : Int) (tag : String) (ci p : Nat) (g t : Int) (st : DecodeState),
      g ≠ -100 → t ≠ bIdx →
      stepSpan2 bIdx tag ci p g t st = (st.1 ++ st.2.toList, none))
    ∧ (∀ (numLabels bIdx iIdx eIdx sIdx : Int) (tag : String) (ci : Nat)
      (goldRow row : List Int) (p : Nat) (st : DecodeState),
      p + row.length ≤ goldRow.length →
      (getSpansRowAux numLabels bIdx iIdx eIdx sIdx tag ci goldRow p st row).isSome)
    ∧ (∀ (bIdx : Int) (tag : String) (ci : Nat) (goldRow row : List Int)
      (p : Nat) (st : DecodeState),
      p + row.length ≤ goldRow.length →
      (getSpansRow2Aux bIdx tag ci goldRow p st row).isSome) := by
  refine ⟨?_, ?_, ?_, ?_⟩
  · intro numLabels bIdx iIdx eIdx sIdx tag ci p g t st hg hb hi he hs
    obtain ⟨done, op⟩ := st
    cases op <;> simp [stepSpan, hg, hb, hi, he, hs]
  · intro bIdx tag ci p g t st hg hb
    obtain ⟨done, op⟩ := st
    cases op <;> simp [stepSpan2, closeState, hg, hb]
  · intro numLabels bIdx iIdx eIdx sIdx tag ci goldRow row p st h
    exact getSpansRowAux_isSome numLabels bIdx iIdx eIdx sIdx tag ci goldRow row p st h
  · intro bIdx tag ci goldRow row p st h
    exact getSpansRow2Aux_isSome bIdx tag ci goldRow row p st h

/-- C8, witness: an out-of-range tag value (7) and the none index (0) both
close the open span at a concrete state, and concrete token loops over
arbitrary tag values succeed. -/
theorem c8_witness :
    stepSpan 4 1 2 3 4 "TAG" 0 1 0 7 ([], some ⟨0, 0, 0, "TAG"⟩)
      = ([⟨0, 0, 0, "TAG"⟩], none)
    ∧ stepSpan2 1 "TAG" 0 1 0 0 ([], some ⟨0, 0, 0, "TAG"⟩)
      = ([⟨0, 0, 0, "TAG"⟩], none)
    ∧ (getSpansRowAux 4 1 2 3 4 "TAG" 0 [0, 0] 0 ([], none) [99, -7]).isSome
    ∧ (getSpansRow2Aux 1 "TAG" 0 [0, 0] 0 ([], none) [99, -7]).isSome :=
  ⟨c8_unknown_tag_closes.1 4 1 2 3 4 "TAG" 0 1 0 7 ([], some ⟨0, 0, 0, "TAG"⟩)
      (by decide) (by decide) (by decide) (by decide) (by decide),
   c8_unknown_tag_closes.2.1 1 "TAG" 0 1 0 0 ([], some ⟨0, 0, 0, "TAG"⟩)
      (by decide) (by decide),
   c8_unknown_tag_closes.2.2.1 4 1 2 3 4 "TAG" 0 [0, 0] [99, -7] 0 ([], none)
      (by decide),
   c8_unknown_tag_closes.2.2.2 1 "TAG" 0 [0, 0] [99, -7] 0 ([], none) (by decide)⟩

/-- C2: for every input and every position `p` whose gold-mask value is the
ignore sentinel `-100`, no span produced by decoding — the gold decode is the
`batch := gold` instance — has a boundary at `p`, whatever the raw tag there;
and reaching an ignored position closes any open span (both schemes). -/
theorem c2_ignore_masking :
    (∀ (numLabels : Int) (noneTag : String) (entityOf : Nat → String)
      (gold batch : List (List Int)) (res : List (List Span)) (ci : Nat)
      (spans : List Span) (s : Span) (p : Nat),
      get_spans numLabels noneTag entityOf gold batch = some res →
      res[ci]? = some spans → s ∈ spans →
      ((gold[ci]?).getD [])[p]? = some (-100) →
      s.start_position ≠ p ∧ s.end_position ≠ p)
    ∧ (∀ (noneTag : String) (entityOf : Nat → String)
      (gold batch : List (List Int)) (res : List (List Span)) (ci : Nat)
      (spans : List Span) (s : Span) (p : Nat),
      get_spans_for_2_tag_scheme noneTag entityOf gold batch = some res →
      res[ci]? = some spans → s ∈ spans →
      ((gold[ci]?).getD [])[p]? = some (-100) →
      s.start_position ≠ p ∧ s.end_position ≠ p)
    ∧ (∀ (numLabels bIdx iIdx eIdx sIdx : Int) (tag : String) (ci p : Nat)
      (t : Int) (st : DecodeState),
      stepSpan numLabels bIdx iIdx eIdx sIdx tag ci p (-100) t st = closeState st)
    ∧ (∀ (bIdx : Int) (tag : String) (ci p : Nat) (t : Int) (st : DecodeState),
      stepSpan2 bIdx tag ci p (-100) t st = closeState st) := by
  refine ⟨?_, ?_, ?_, ?_⟩
  · intro numLabels noneTag entityOf gold batch res ci spans s p h hci hs hp
    rw [get_spans] at h
    obtain ⟨row, _, hdec⟩ := get_spans_aux_nth _ _ _ _ _ _ gold batch 0 res h ci spans hci
    rw [Nat.zero_add] at hdec
    obtain ⟨_, _, hstart, hend⟩ :=
      (getSpansRow_sound _ _ _ _ _ _ _ _ _ _ hdec).1 s hs
    exact ⟨fun hEq => hstart (hEq ▸ hp), fun hEq => hend (hEq ▸ hp)⟩
  · intro noneTag entityOf gold batch res ci spans s p h hci hs hp
    rw [get_spans_for_2_tag_scheme] at h
    obtain ⟨row, _, hdec⟩ := get_spans2_aux_nth _ _ gold batch 0 res h ci spans hci
    rw [Nat.zero_add] at hdec
    obtain ⟨_, _, hstart, hend⟩ := (getSpansRow2_sound _ _ _ _ _ _ hdec).1 s hs
    exact ⟨fun hEq => hstart (hEq ▸ hp), fun hEq => hend (hEq ▸ hp)⟩
  · intro numLabels bIdx iIdx eIdx sIdx tag ci p t st
    simp [stepSpan]
  · intro bIdx tag ci p t st
    simp [stepSpan2]

/-- C2, witness: with gold mask `[0, -100]` and predicted tags `[B, B]`, the
single decoded span has neither boundary at the ignored position 1. -/
theorem c2_witness :
    (⟨0, 0, 0, "TAG"⟩ : Span).start_position ≠ 1
    ∧ (⟨0, 0, 0, "TAG"⟩ : Span).end_position ≠ 1 :=
  c2_ignore_masking.1 3 "O" (fun _ => "TAG") [[0, -100]] [[1, 1]]
    [[⟨0, 0, 0, "TAG"⟩]] 0 [⟨0, 0, 0, "TAG"⟩] ⟨0, 0, 0, "TAG"⟩ 1
    (by decide) (by decide) (by decide) (by decide)

/-- C7: for every input batch and every context, the decoded span list (under
either scheme) is non-overlapping and ordered by start position: every span
starts strictly after every earlier span of the same context ends. -/
theorem c7_spans_nonoverlapping_ordered :
    (∀ (numLabels : Int) (noneTag : String) (entityOf : Nat → String)
      (gold batch : List (List Int)) (res : List (List Span)) (ci : Nat)
      (spans : List Span),
      get_spans numLabels noneTag entityOf gold batch = some res →
      res[ci]? = some spans → SpanOrdered spans)
    ∧ (∀ (noneTag : String) (entityOf : Nat → String)
      (gold batch : List (List Int)) (res : List (List Span)) (ci : Nat)
      (spans : List Span),
      get_spans_for_2_tag_scheme noneTag entityOf gold batch = some res →
      res[ci]? = some spans → SpanOrdered spans) := by
  constructor
  · intro numLabels noneTag entityOf gold batch res ci spans h hci
    rw [get_spans] at h
    obtain ⟨row, _, hdec⟩ := get_spans_aux_nth _ _ _ _ _ _ gold batch 0 res h ci spans hci
    exact (getSpansRow_sound _ _ _ _ _ _ _ _ _ _ hdec).2
  · intro noneTag entityOf gold batch res ci spans h hci
    rw [get_spans_for_2_tag_scheme] at h
    obtain ⟨row, _, hdec⟩ := get_spans2_aux_nth _ _ gold batch 0 res h ci spans hci
    exact (getSpansRow2_sound _ _ _ _ _ _ hdec).2

/-- C7, witness: the two spans decoded from `[B, B, O, B]` under the 2-tag
scheme are ordered. -/
theorem c7_witness :
    SpanOrdered [⟨0, 0, 1, "TAG"⟩, ⟨0, 3, 3, "TAG"⟩] :=
  c7_spans_nonoverlapping_ordered.2 "O" (fun _ => "TAG") [[0, 0, 0, 0]]
    [[1, 1, 0, 1]] [[⟨0, 0, 1, "TAG"⟩, ⟨0, 3, 3, "TAG"⟩]] 0
    [⟨0, 0, 1, "TAG"⟩, ⟨0, 3, 3, "TAG"⟩] (by decide) (by decide)

/-- C10: within one decode call every span of a context carries the context's
resolved entity type (`entityOf ci`, the constant `"TAG"` when no dataset is
supplied) and the context's index; consequently the type-mismatch
cancellation branches are unreachable: both one-context decoders agree with
their mismatch-free variants on every input. -/
theorem c10_uniform_context_type :
    (∀ (numLabels : Int) (noneTag : String) (entityOf : Nat → String)
      (gold batch : List (List Int)) (res : List (List Span)) (ci : Nat)
      (spans : List Span) (s : Span),
      get_spans numLabels noneTag entityOf gold batch = some res →
      res[ci]? = some spans → s ∈ spans →
      s.tag = entityOf ci ∧ s.context_index = ci)
    ∧ (∀ (noneTag : String) (entityOf : Nat → String)
      (gold batch : List (List Int)) (res : List (List Span)) (ci : Nat)
      (spans : List Span) (s : Span),
      get_spans_for_2_tag_scheme noneTag entityOf gold batch = some res →
      res[ci]? = some spans → s ∈ spans →
      s.tag = entityOf ci ∧ s.context_index = ci)
    ∧ (∀ (numLabels bIdx iIdx eIdx sIdx : Int) (tag : String) (ci : Nat)
      (goldRow row : List Int),
      getSpansRow numLabels bIdx iIdx eIdx sIdx tag ci goldRow row
        = getSpansRowNM numLabels bIdx iIdx eIdx sIdx tag ci goldRow row)
    ∧ (∀ (bIdx : Int) (tag : String) (ci : Nat) (goldRow row : List Int),
      getSpansRow2 bIdx tag ci goldRow row = getSpansRow2NM bIdx tag ci goldRow row) := by
  refine ⟨?_, ?_, ?_, ?_⟩
  · intro numLabels noneTag entityOf gold batch res ci spans s h hci hs
    rw [get_spans] at h
    obtain ⟨row, _, hdec⟩ := get_spans_aux_nth _ _ _ _ _ _ gold batch 0 res h ci spans hci
    rw [Nat.zero_add] at hdec
    obtain ⟨htag, hcidx, _, _⟩ := (getSpansRow_sound _ _ _ _ _ _ _ _ _ _ hdec).1 s hs
    exact ⟨htag, hcidx⟩
  · intro noneTag entityOf gold batch res ci spans s h hci hs
    rw [get_spans_for_2_tag_scheme] at h
    obtain ⟨row, _, hdec⟩ := get_spans2_aux_nth _ _ gold batch 0 res h ci spans hci
    rw [Nat.zero_add] at hdec
    obtain ⟨htag, hcidx, _, _⟩ := (getSpansRow2_sound _ _ _ _ _ _ hdec).1 s hs
    exact ⟨htag, hcidx⟩
  · intro numLabels bIdx iIdx eIdx sIdx tag ci goldRow row
    rw [getSpansRow, getSpansRowNM]
    exact getSpansRowAux_eq_NM numLabels bIdx iIdx eIdx sIdx tag ci goldRow row 0
      ([], none) (by intro sp h; exact absurd h (by simp))
  · intro bIdx tag ci goldRow row
    rw [getSpansRow2, getSpansRow2NM]
    exact getSpansRow2Aux_eq_NM bIdx tag ci goldRow row 0 ([], none)
      (by intro sp h; exact absurd h (by simp))

/-- C10, witness: the span decoded from `[B]` carries the resolved type and
the context index. -/
theorem c10_witness :
    (⟨0, 0, 0, "TAG"⟩ : Span).tag = (fun _ => "TAG") 0
    ∧ (⟨0, 0, 0, "TAG"⟩ : Span).context_index = 0 :=
  c10_uniform_context_type.1 3 "O" (fun _ => "TAG") [[0]] [[1]]
    [[⟨0, 0, 0, "TAG"⟩]] 0 [⟨0, 0, 0, "TAG"⟩] ⟨0, 0, 0, "TAG"⟩
    (by decide) (by decide) (by decide)

/-- C6: `calc_entity_metrics` makes exactly one accumulator call per span —
for every entity type `t` and every zipped context pair, the `tp` counter for
`t` counts exactly the predicted spans of type `t` value-equal (all four
fields) to some gold span of their context, the `fp` counter the remaining
predicted spans of type `t`, and the `fn` counter the gold spans of type `t`
with no value-equal predicted counterpart — exact boundary-and-type matching
with no partial credit. -/
theorem c6_exact_match_scoring (tags : List String) (golds preds : List (List Span))
    (t : String) :
    (calc_entity_metrics tags golds preds).tp t
        = ((golds.zip preds).map (fun gp =>
            gp.2.countP (fun s => decide (s ∈ gp.1) && decide (s.tag = t)))).sum
    ∧ (calc_entity_metrics tags golds preds).fp t
        = ((golds.zip preds).map (fun gp =>
            gp.2.countP (fun s => !decide (s ∈ gp.1) && decide (s.tag = t)))).sum
    ∧ (calc_entity_metrics tags golds preds).fn t
        = ((golds.zip preds).map (fun gp =>
            gp.1.countP (fun s => !decide (s ∈ gp.2) && decide (s.tag = t)))).sum := by
  obtain ⟨htp, hfp, hfn⟩ := calcFold_counts t (golds.zip preds) (Metric.init tags)
  rw [calc_entity_metrics]
  exact ⟨by rw [htp]; simp [Metric.init], by rw [hfp]; simp [Metric.init],
    by rw [hfn]; simp [Metric.init]⟩

/-- C9: the micro-averaged metric sums `tp`, `fp`, `fn` across all registered
entity types first and then applies the formulas: for types with
`(tp, fp, fn) = (8, 2, 0)` and `(2, 0, 8)` it yields precision `10/12`,
recall `10/18` and F1 `2/3 ≈ 0.667`, which differs from the average `11/18`
of the per-type F1 scores `8/9` and `1/3`. -/
theorem c9_micro_average_sums_first :
    microExample.micro_avg_precision = 10 / 12
    ∧ microExample.micro_avg_recall = 10 / 18
    ∧ microExample.micro_avg_f1 = 2 / 3
    ∧ microExample.micro_avg_f1 ≠ (f1_value 8 2 0 + f1_value 2 0 8) / 2 := by
  have htp : microExample.micro_tp = 10 := by decide
  have hfp : microExample.micro_fp = 2 := by decide
  have hfn : microExample.micro_fn = 8 := by decide
  refine ⟨?_, ?_, ?_, ?_⟩
  · rw [Metric.micro_avg_precision, htp, hfp, precision_value]
    norm_num
  · rw [Metric.micro_avg_recall, htp, hfn, recall_value]
    norm_num
  · rw [Metric.micro_avg_f1, htp, hfp, hfn]
    norm_num [f1_value, precision_value, recall_value]
  · rw [Metric.micro_avg_f1, htp, hfp, hfn]
    norm_num [f1_value, precision_value, recall_value]

/-- C3, counterexample: with two gold contexts `[[B], [B]]` and a single
predicted context `[[O]]` the evaluator does not fail fast — construction
succeeds — and its metric records only one false negative for `"TAG"`
although gold holds one span in each of two contexts: the second gold context
was silently dropped by `zip`. -/
theorem c3_counterexample :
    (evaluatorQA 3 "O" (fun _ => "TAG") ["TAG"] [[1], [1]] [[0]]).isSome = true
    ∧ (evaluatorQA 3 "O" (fun _ => "TAG") ["TAG"] [[1], [1]] [[0]]).map
        (fun m => m.fn "TAG") = some 1 := by
  constructor <;> decide

/-- C3, amended: the evaluator does not validate shapes.  Whenever every
predicted row is covered by its gold-mask row (in particular whenever the
inputs are shape-mismatched with gold the longer side), construction
succeeds with no error; and scoring depends only on `zip` of the two span
batches, i.e. on the gold side truncated to the predicted side's context
count — extra gold contexts are silently ignored rather than rejected. -/
theorem c3_silent_truncation (numLabels : Int) (noneTag : String)
    (entityOf : Nat → String) (tags : List String)
    (gold predicted : List (List Int))
    (hrows : ∀ k, k < predicted.length →
      ((predicted[k]?).getD []).length ≤ ((gold[k]?).getD []).length) :
    (evaluatorQA numLabels noneTag entityOf tags gold predicted).isSome
    ∧ (∀ (golds preds : List (List Span)),
        calc_entity_metrics tags golds preds
          = calc_entity_metrics tags (golds.take preds.length) preds) := by
  constructor
  · by_cases h2 : numLabels = 2
    · have hg := get_spans2_aux_isSome (get_tag_index "B" noneTag) entityOf gold
        gold 0 (by intro k hk; simp)
      have hp := get_spans2_aux_isSome (get_tag_index "B" noneTag) entityOf gold
        predicted 0 (by intro k hk; have := hrows k hk; simpa using this)
      obtain ⟨gs, hgs⟩ := Option.isSome_iff_exists.1 hg
      obtain ⟨ps, hps⟩ := Option.isSome_iff_exists.1 hp
      rw [evaluatorQA, if_pos h2, get_spans_for_2_tag_scheme,
        get_spans_for_2_tag_scheme, hgs, hps]
      simp
    · have hg := get_spans_aux_isSome numLabels (get_tag_index "B" noneTag)
        (get_tag_index "I" noneTag) (get_tag_index "E" noneTag)
        (get_tag_index "S" noneTag) entityOf gold gold 0 (by intro k hk; simp)
      have hp := get_spans_aux_isSome numLabels (get_tag_index "B" noneTag)
        (get_tag_index "I" noneTag) (get_tag_index "E" noneTag)
        (get_tag_index "S" noneTag) entityOf gold predicted 0
        (by intro k hk; have := hrows k hk; simpa using this)
      obtain ⟨gs, hgs⟩ := Option.isSome_iff_exists.1 hg
      obtain ⟨ps, hps⟩ := Option.isSome_iff_exists.1 hp
      rw [evaluatorQA, if_neg h2, get_spans, get_spans, hgs, hps]
      simp
  · intro golds preds
    rw [calc_entity_metrics, calc_entity_metrics, ← zip_take_left]

/-- C3, witness: the amended theorem at the counterexample's input — the
evaluator succeeds on a 2-vs-1 context mismatch, and scoring two gold
contexts against one predicted context equals scoring the truncated gold. -/
theorem c3_witness :
    (evaluatorQA 3 "O" (fun _ => "TAG") ["TAG"] [[1], [1]] [[0]]).isSome
    ∧ calc_entity_metrics ["TAG"]
        [[⟨0, 0, 0, "TAG"⟩], [⟨1, 0, 0, "TAG"⟩]] [[]]
      = calc_entity_metrics ["TAG"] [[⟨0, 0, 0, "TAG"⟩]] [[]] :=
  ⟨(c3_silent_truncation 3 "O" (fun _ => "TAG") ["TAG"] [[1], [1]] [[0]]
      (by decide)).1,
   (c3_silent_truncation 3 "O" (fun _ => "TAG") ["TAG"] [[1], [1]] [[0]]
      (by decide)).2 [[⟨0, 0, 0, "TAG"⟩], [⟨1, 0, 0, "TAG"⟩]] [[]]⟩

end Splitner
